import Mathlib

/-!
Verification of the heading/title inference pipeline of pdf_processor.py.

The Python source is shallow-embedded below.  Notes on the embedding:
* Python floats are modelled by exact rationals.  All arithmetic the
  pipeline performs on sizes, coordinates and scores is plain addition,
  multiplication and comparison, and all concrete inputs considered here
  are far from any representation boundary, so the rational model agrees
  with the float semantics of the source on everything proved below.
* The Unicode-aware character classes of Python regexes and of
  str.strip, str.lower, str.isupper, str.isalpha are modelled by their
  ASCII restrictions.  Every concrete string appearing below is ASCII
  except the bullet glyph, which lies in none of the classes in either
  semantics, so the models agree on all inputs considered.
* difflib.SequenceMatcher.ratio is reproduced faithfully: the
  longest-matching-block recursion with the same tie-breaking as the
  reference implementation (no junk and no autojunk arises, since every
  string compared is shorter than 200 characters).
* Python list.sort and sorted are stable; they are modelled by stable
  insertion sorts, which agree extensionally with any stable sort by the
  same key.
-/

set_option maxHeartbeats 4000000
set_option maxRecDepth 100000

attribute [local semireducible] Rat.add Rat.sub Rat.mul Rat.inv

/-! ## ASCII models of the Python character classes -/

/-- Whitespace, as in the ASCII fragment of the regex class backslash-s
and of str.strip / str.split. -/
def isPySpace (c : Char) : Bool :=
  c = ' ' || c = '\t' || c = '\n' || c = '\x0d' || c = '\x0b' || c = '\x0c'

/-- Word characters, ASCII fragment of the regex class backslash-w. -/
def isPyWord (c : Char) : Bool :=
  c.isAlphanum || c = '_'

/-- str.lower, ASCII fragment. -/
def pyLower (s : String) : String :=
  String.mk (s.toList.map Char.toLower)

/-- str.strip with no argument: remove leading and trailing whitespace. -/
def pyStripL (l : List Char) : List Char :=
  ((l.dropWhile isPySpace).reverse.dropWhile isPySpace).reverse

/-- str.strip on strings. -/
def pyStrip (s : String) : String :=
  String.mk (pyStripL s.toList)

/-- One step of whitespace-run collapsing; the flag records whether the
previous character was whitespace.  Models re.sub of a whitespace run by
a single space. -/
def collapseGo : Bool → List Char → List Char
  | _, [] => []
  | prevSp, c :: r =>
    if isPySpace c then
      if prevSp then collapseGo true r else ' ' :: collapseGo true r
    else c :: collapseGo false r

/-- re.sub replacing every maximal whitespace run by a single space. -/
def collapseWs (l : List Char) : List Char := collapseGo false l

/-- str.split with no argument: whitespace-separated words, no empties.
The first list argument accumulates the current word reversed. -/
def pySplitGo : List Char → List Char → List (List Char)
  | [], acc => if acc = [] then [] else [acc.reverse]
  | c :: r, acc =>
    if isPySpace c then
      if acc = [] then pySplitGo r [] else acc.reverse :: pySplitGo r []
    else pySplitGo r (c :: acc)

/-- str.split with no argument. -/
def pySplit (s : String) : List (List Char) := pySplitGo s.toList []

/-- any(c.isalpha() for c in text), ASCII fragment. -/
def hasAlpha (s : String) : Bool := s.toList.any Char.isAlpha

/-- _is_all_caps: text.isupper() and any(c.isalpha() ...).  In the ASCII
fragment the cased characters are exactly the letters, so isupper is:
some letter occurs and no lowercase letter occurs. -/
def isAllCaps (s : String) : Bool :=
  (s.toList.any Char.isAlpha) && !(s.toList.any Char.isLower)

/-- _is_title_case: every nonempty whitespace-separated word starts with
an uppercase character. -/
def isTitleCase (s : String) : Bool :=
  (pySplit s).all fun w => match w with
    | [] => true
    | c :: _ => c.isUpper

/-! ## difflib.SequenceMatcher -/

/-- Position comparison a[i] = b[j], with out-of-range never equal. -/
def eqAt (a b : List Char) (i j : ℕ) : Bool :=
  match a.get? i, b.get? j with
  | some x, some y => x = y
  | _, _ => false

/-- Length of the diagonal run of equal characters ending at (i, j),
truncated at the window start (alo, blo).  This is the quantity the
j2len dynamic program of find_longest_match computes. -/
def runLen (a b : List Char) (alo blo : ℕ) : ℕ → ℕ → ℕ
  | 0, j => if eqAt a b 0 j then 1 else 0
  | i + 1, 0 => if eqAt a b (i + 1) 0 then 1 else 0
  | i + 1, j + 1 =>
    if eqAt a b (i + 1) (j + 1) then
      if alo < i + 1 && blo < j + 1 then runLen a b alo blo i j + 1 else 1
    else 0

/-- find_longest_match on the window [alo, ahi) x [blo, bhi): the triple
(besti, bestj, bestsize), scanning i then j in increasing order and
updating on strictly larger run length, exactly as the reference
implementation does with no junk. -/
def flm (a b : List Char) (alo ahi blo bhi : ℕ) : ℕ × ℕ × ℕ :=
  (List.range' alo (ahi - alo)).foldl
    (fun best i =>
      (List.range' blo (bhi - blo)).foldl
        (fun best j =>
          let k := runLen a b alo blo i j
          if best.2.2 < k then (i + 1 - k, j + 1 - k, k) else best)
        best)
    (alo, blo, 0)

/-- Total size of the matching blocks of get_matching_blocks on a
window, with fuel for termination; the fuel used below always exceeds
the recursion depth. -/
def mSumGo (a b : List Char) : ℕ → ℕ → ℕ → ℕ → ℕ → ℕ
  | 0, _, _, _, _ => 0
  | fuel + 1, alo, ahi, blo, bhi =>
    if alo < ahi && blo < bhi then
      let t := flm a b alo ahi blo bhi
      if t.2.2 = 0 then 0
      else
        mSumGo a b fuel alo t.1 blo t.2.1 + t.2.2 +
          mSumGo a b fuel (t.1 + t.2.2) ahi (t.2.1 + t.2.2) bhi
    else 0

/-- Sum of the sizes of all matching blocks of SequenceMatcher. -/
def matchTotal (a b : List Char) : ℕ :=
  mSumGo a b (a.length + b.length + 1) 0 a.length 0 b.length

/-- _similar: SequenceMatcher(None, a, b).ratio() > 0.85, i.e.
2 M / (len a + len b) > 17/20, cleared of denominators; ratio of two
empty strings is defined as 1.0 by difflib. -/
def similar (a b : String) : Bool :=
  let la := a.toList
  let lb := b.toList
  let T := la.length + lb.length
  if T = 0 then true else decide (40 * matchTotal la lb > 17 * T)

/-- Substring containment, modelling the Python "in" operator. -/
def containsSub (needle hay : List Char) : Bool :=
  (List.range (hay.length + 1)).any fun i => needle.isPrefixOf (hay.drop i)

/-! ## The regexes of _extract_headings

Each matcher decides whether re.match succeeds, i.e. whether some match
of the pattern starts at position 0.  Greedy runs are forced wherever
the following pattern element is disjoint from the run class, so the
recognizers below are existence-exact. -/

/-- backslash-s+ then a word character: the tail of several patterns. -/
def spaceThenWord (l : List Char) : Bool :=
  let sp := l.takeWhile isPySpace
  sp ≠ [] && (match l.drop sp.length with
    | c :: _ => isPyWord c
    | [] => false)

/-- After the digit run of the numbered-paragraph pattern: an optional
close parenthesis, an optional period or close parenthesis, then
whitespace and a word character.  All backtracking alternatives of the
two optionals are enumerated. -/
def afterDigits (l : List Char) : Bool :=
  spaceThenWord l ||
    (match l with
     | x :: r =>
       ((x = '.' || x = ')') && spaceThenWord r) ||
         (x = ')' && (match r with
           | y :: r2 => (y = '.' || y = ')') && spaceThenWord r2
           | [] => false))
     | [] => false)

/-- Numbered-paragraph rejection pattern of line 157:
an optional open parenthesis, digits, an optional close parenthesis, an
optional period or close parenthesis, whitespace, then a word character. -/
def numberedParaMatch (l : List Char) : Bool :=
  let l1 := match l with
    | '(' :: r => r
    | _ => l
  let ds := l1.takeWhile Char.isDigit
  ds ≠ [] && afterDigits (l1.drop ds.length)

/-- Top-level numbered-heading acceptance pattern of line 173: digits, a
period, one whitespace character. -/
def topNumMatch (l : List Char) : Bool :=
  let ds := l.takeWhile Char.isDigit
  ds ≠ [] && (match l.drop ds.length with
    | '.' :: c :: _ => isPySpace c
    | _ => false)

/-- Two-level numbered-heading acceptance pattern of line 173: digits, a
period, digits, one whitespace character. -/
def twoNumMatch (l : List Char) : Bool :=
  let ds := l.takeWhile Char.isDigit
  ds ≠ [] && (match l.drop ds.length with
    | '.' :: r =>
      let ds2 := r.takeWhile Char.isDigit
      ds2 ≠ [] && (match r.drop ds2.length with
        | c :: _ => isPySpace c
        | [] => false)
    | _ => false)

/-- Bullet rejection pattern of line 154.  The source file stores the
bullet glyph double-encoded, so the character class of the compiled
regex is the three mojibake characters below plus the hyphen; the
actual bullet glyph U+2022 is not in the class. -/
def bulletMatch (l : List Char) : Bool :=
  match l with
  | c :: r =>
    (c = 'â' || c = '€' || c = '¢' || c = '-') &&
      (match r.drop (r.takeWhile isPySpace).length with
        | c2 :: _ => isPyWord c2
        | [] => false)
  | [] => false

/-- No newline occurs in the list: the dot of an unflagged Python regex
does not match a newline. -/
def noNl (l : List Char) : Bool := l.all (· ≠ '\n')

/-- Final element of several patterns: anchoring at end of string, where
the dollar anchor also matches just before one final newline. -/
def endAnchor (l : List Char) : Bool :=
  l = [] || l = ['\n']

/-- Dotted table-of-contents entry pattern of line 148: anything without
a newline, two or more periods, whitespace, digits, whitespace, end.
The split position of the leading dot-anything is searched exhaustively;
runs after it are forced maximal by class disjointness. -/
def dottedMatch (l : List Char) : Bool :=
  (List.range (l.length + 1)).any fun i =>
    noNl (l.take i) &&
      (let rest := l.drop i
       let dots := rest.takeWhile (· = '.')
       2 ≤ dots.length &&
         (let r1 := (rest.drop dots.length)
          let sp := r1.takeWhile isPySpace
          let r2 := r1.drop sp.length
          let ds := r2.takeWhile Char.isDigit
          ds ≠ [] &&
            (let r3 := r2.drop ds.length
             let sp2 := r3.takeWhile isPySpace
             endAnchor (r3.drop sp2.length))))

/-- Trailing part of the version-table pattern: whitespace (at least
one character), then at least one non-newline character, then end of
string or a final newline.  The amount of whitespace consumed is
searched exhaustively, since the dot class also matches a space. -/
def versionTail (l : List Char) : Bool :=
  (List.range' 1 (l.takeWhile isPySpace).length).any fun k =>
    let body := l.drop k
    body ≠ [] &&
      (noNl body ||
        (body.getLast? = some '\n' && noNl body.dropLast && body.dropLast ≠ []))

/-- Version-table rejection pattern of line 151: digits, period, digits,
whitespace, a 1-2 digit day, a space, a 3-9 letter uppercase month, a
space, a 4-digit year, whitespace, then nonempty trailing content. -/
def versionMatch (l : List Char) : Bool :=
  let ds1 := l.takeWhile Char.isDigit
  ds1 ≠ [] && (match l.drop ds1.length with
    | '.' :: r =>
      let ds2 := r.takeWhile Char.isDigit
      ds2 ≠ [] &&
        (let r1 := r.drop ds2.length
         let sp := r1.takeWhile isPySpace
         sp ≠ [] &&
           (let r2 := r1.drop sp.length
            let day := r2.takeWhile Char.isDigit
            (day.length = 1 || day.length = 2) && (match r2.drop day.length with
              | ' ' :: r3 =>
                let mon := r3.takeWhile Char.isUpper
                (3 ≤ mon.length && mon.length ≤ 9) && (match r3.drop mon.length with
                  | ' ' :: r4 =>
                    let yr := r4.takeWhile Char.isDigit
                    yr.length = 4 && versionTail (r4.drop yr.length)
                  | _ => false)
              | _ => false)))
    | _ => false)

/-! ## Data model -/

/-- One positioned character as supplied by the adapter: glyph text,
left edge, baseline-relative vertical coordinate, distance from page
top, font size, font name. -/
structure PChar where
  text : String
  x0 : ℚ
  y0 : ℚ
  top : ℚ
  size : ℚ
  fontname : String
deriving DecidableEq, Repr, Inhabited

/-- One page: its characters, width and height. -/
structure Page where
  chars : List PChar
  width : ℚ
  height : ℚ
deriving DecidableEq, Repr, Inhabited

/-- A decoded document: pages plus the optional metadata Title entry
(none models both absent metadata and an absent Title key). -/
structure Doc where
  pages : List Page
  metaTitle : Option String
deriving DecidableEq, Repr, Inhabited

/-- The constructor arguments of PDFProcessor (verbose is never read by
the pipeline and is omitted). -/
structure Config where
  maxPages : ℕ
  fontSizeThreshold : ℚ
  minHeadingScore : ℚ
  tocSkipPages : ℕ
  headerFooterRatio : ℚ
  debug : Bool
deriving DecidableEq, Repr, Inhabited

/-- The default constructor arguments. -/
def cfgDefault : Config :=
  { maxPages := 50, fontSizeThreshold := 6/5, minHeadingScore := 60,
    tocSkipPages := 2, headerFooterRatio := 1/10, debug := false }

/-- A heading candidate as built inside _extract_headings. -/
structure Cand where
  text : String
  page : ℕ
  font_size : ℚ
  score : ℚ
deriving DecidableEq, Repr, Inhabited

/-- A public outline entry after level assignment and field stripping. -/
structure Heading where
  text : String
  page : ℕ
  level : String
deriving DecidableEq, Repr, Inhabited

/-- A rejection diagnostic record. -/
structure Rej where
  page : ℕ
  text : String
  reasons : List String
deriving DecidableEq, Repr, Inhabited

/-- The public result of process_pdf; rejected is present exactly when
diagnostics are enabled. -/
structure Result where
  title : String
  outline : List Heading
  rejected : Option (List Rej)
deriving DecidableEq, Repr, Inhabited

/-- The mutable state threaded through _extract_headings: the two
table-of-contents flags, the candidate list, and the rejection
accumulator self.rejected_blocks. -/
structure St where
  toc : Bool
  tocStart : ℤ
  cands : List Cand
  rej : List Rej
deriving DecidableEq, Repr, Inhabited

/-! ## Block segmentation and typographic features -/

/-- The sort key order of line 40: descending y0, then ascending x0;
a strictly-precedes test used by the stable insertion sort. -/
def charLt (a b : PChar) : Bool :=
  b.y0 < a.y0 || (a.y0 = b.y0 && a.x0 < b.x0)

/-- Stable insertion of a character that originally precedes the list. -/
def insChar (x : PChar) : List PChar → List PChar
  | [] => [x]
  | y :: l => if charLt y x then y :: insChar x l else x :: y :: l

/-- Stable sort by (-y0, x0), modelling the stable list.sort of
_group_chars_into_blocks. -/
def sortChars : List PChar → List PChar
  | [] => []
  | x :: xs => insChar x (sortChars xs)

/-- Grouping loop of _group_chars_into_blocks: a new block starts when
the vertical gap to the previous character exceeds 5 units. -/
def groupGo (acc : List PChar) (lastY : ℚ) : List PChar → List (List PChar)
  | [] => [acc]
  | c :: rest =>
    if 5 < |c.y0 - lastY| then acc :: groupGo [c] c.y0 rest
    else groupGo (acc ++ [c]) c.y0 rest

/-- _group_chars_into_blocks applied to already-sorted characters. -/
def groupBlocks : List PChar → List (List PChar)
  | [] => []
  | c :: rest => groupGo [c] c.y0 rest

/-- The blocks of one page: sort, then group. -/
def pageBlocks (p : Page) : List (List PChar) :=
  groupBlocks (sortChars p.chars)

/-- _block_text: concatenation of the glyph texts. -/
def blockText (block : List PChar) : String :=
  String.join (block.map (·.text))

/-- max(c.size for c in block); Python max of a nonempty sequence,
0 returned on the empty list (never reached). -/
def maxSize : List PChar → ℚ
  | [] => 0
  | c :: rest => (rest.map (·.size)).foldl max c.size

/-- _is_font_bold: more than 60 percent of the characters carry a font
name containing Bold or bold; cleared of denominators. -/
def isFontBold (block : List PChar) : Bool :=
  let fonts := block.map (·.fontname)
  let bold := fonts.filter fun f =>
    containsSub "Bold".toList f.toList || containsSub "bold".toList f.toList
  5 * bold.length > 3 * fonts.length

/-- _calculate_vertical_spacing: distance from the current y to the
nearest character strictly above it, 0 if none. -/
def vertSpacing (currentY : ℚ) (sortedChars : List PChar) : ℚ :=
  let above := sortedChars.filter fun c => currentY < c.y0
  match above with
  | [] => 0
  | c :: rest => (rest.map (·.y0)).foldl min c.y0 - currentY

/-- _calculate_heading_score. -/
def headingScore (cfg : Config) (text : String) (fontSize : ℚ)
    (isBold : Bool) (spacing : ℚ) : ℚ :=
  (if isAllCaps text then 20 else 0) + (if isTitleCase text then 10 else 0) +
    (if isBold then 10 else 0) + fontSize * cfg.fontSizeThreshold + spacing * (1/2)

/-- Round half to even at one decimal digit, the behaviour of Python
round(x, 1) away from representation boundaries. -/
def roundQ1 (q : ℚ) : ℚ :=
  let x := q * 10
  let f : ℤ := Int.floor x
  let r : ℤ :=
    if x - f < 1/2 then f
    else if 1/2 < x - f then f + 1
    else if Even f then f else f + 1
  (r : ℚ) / 10

/-! ## Deduplication and level assignment -/

/-- The duplicate test of lines 90-93: some already-seen heading on the
same page has fuzzy-similar lowercased text. -/
def isDup (seen : List Cand) (h : Cand) : Bool :=
  seen.any fun s => h.page = s.page && similar (pyLower h.text) (pyLower s.text)

/-- The filtering loop of _deduplicate_headings; seen and unique grow
together in the source, so one accumulator suffices. -/
def dedupGo (seen : List Cand) : List Cand → List Cand
  | [] => []
  | h :: t =>
    if isDup seen h then dedupGo seen t
    else h :: dedupGo (seen ++ [h]) t

/-- The filtering pass started with an empty seen list. -/
def dedupPass (hs : List Cand) : List Cand := dedupGo [] hs

/-- Stable insertion by page of a candidate that originally precedes
the list. -/
def insPage (x : Cand) : List Cand → List Cand
  | [] => [x]
  | y :: l => if y.page < x.page then y :: insPage x l else x :: y :: l

/-- Stable sort by page index, modelling the stable sorted of line 97. -/
def sortByPage : List Cand → List Cand
  | [] => []
  | x :: xs => insPage x (sortByPage xs)

/-- _deduplicate_headings: filter in discovery order, then stable-sort
the kept candidates by page. -/
def dedupHeadings (hs : List Cand) : List Cand :=
  sortByPage (dedupPass hs)

/-- Insertion into a descending list of distinct sizes. -/
def insDesc (x : ℚ) : List ℚ → List ℚ
  | [] => [x]
  | y :: l => if x < y then y :: insDesc x l else x :: y :: l

/-- Descending sort of distinct sizes, modelling
sorted(set, reverse=True). -/
def sortDesc : List ℚ → List ℚ
  | [] => []
  | x :: xs => insDesc x (sortDesc xs)

/-- The distinct font sizes of the candidates, descending. -/
def sortedSizes (hs : List Cand) : List ℚ :=
  sortDesc (hs.map (·.font_size)).dedup

/-- The size-to-label table: the i-th entry (0-based, counting from the
given start index) gets label H(i+1). -/
def levelTable : List ℚ → ℕ → List (ℚ × String)
  | [], _ => []
  | s :: rest, i => (s, "H" ++ toString (i + 1)) :: levelTable rest (i + 1)

/-- Dictionary get with default. -/
def lookupD (t : List (ℚ × String)) (k : ℚ) (d : String) : String :=
  match t with
  | [] => d
  | (k2, v) :: rest => if k = k2 then v else lookupD rest k d

/-- _assign_heading_levels followed by the field stripping of lines
187-189: each candidate becomes a public heading whose level is looked
up from the size table, defaulting to H5. -/
def assignLevels (hs : List Cand) : List Heading :=
  hs.map fun h =>
    { text := h.text, page := h.page,
      level := lookupD (levelTable (sortedSizes hs) 0) h.font_size "H5" }

/-! ## The per-block classifier of _extract_headings -/

/-- Header/footer check of line 123 for a block starting with c0. -/
def hfFlag (cfg : Config) (pageHeight : ℚ) (c0 : PChar) : Bool :=
  pageHeight * (1 - cfg.headerFooterRatio) < c0.y0 ||
    c0.top < pageHeight * cfg.headerFooterRatio

/-- Too-short check of line 126. -/
def shortFlag (text : String) : Bool :=
  text.toList.length < 3 || !hasAlpha text

/-- Title-match skip of line 129. -/
def titleFlag (text title : String) : Bool :=
  similar text title || pyLower (pyStrip text) = pyLower (pyStrip title)

/-- Table-of-contents trigger of line 134. -/
def tocFlag (text : String) : Bool :=
  containsSub "table of contents".toList (pyLower text).toList

/-- ToC-adjacent page suppression of line 145. -/
def tocSkipFlag (cfg : Config) (st : St) (i : ℕ) : Bool :=
  st.toc && 0 ≤ st.tocStart && (i : ℤ) ≤ st.tocStart + (cfg.tocSkipPages : ℤ) - 1

/-- The reason list collected by the pattern checks of lines 123-158
(the five checks that do not short-circuit). -/
def blockReasons (cfg : Config) (st : St) (i : ℕ) (pageHeight : ℚ)
    (c0 : PChar) (text : String) : List String :=
  (if hfFlag cfg pageHeight c0 then ["header/footer region"] else []) ++
  (if shortFlag text then ["too short or no letters"] else []) ++
  (if tocSkipFlag cfg st i then ["ToC page skipped"] else []) ++
  (if dottedMatch text.toList then ["dotted ToC entry"] else []) ++
  (if versionMatch text.toList then ["version table entry"] else []) ++
  (if bulletMatch text.toList then ["bullet point"] else []) ++
  (if numberedParaMatch text.toList then ["numbered paragraph"] else [])

/-- Acceptance disjunction of lines 170-174. -/
def acceptFlag (cfg : Config) (text : String) (fontSize score : ℚ)
    (isBold : Bool) : Bool :=
  (cfg.minHeadingScore ≤ score && (isBold || isAllCaps text)) ||
    ((pySplit text).length ≤ 10 && 10 ≤ fontSize) ||
    topNumMatch text.toList || twoNumMatch text.toList

/-- The body of the inner block loop of _extract_headings, lines
114-183, for the page with slice index i. -/
def processBlock (cfg : Config) (title : String) (i : ℕ) (pageHeight : ℚ)
    (sortedChars : List PChar) (st : St) (block : List PChar) : St :=
  match block with
  | [] => st
  | c0 :: _ =>
    let text := pyStrip (blockText block)
    if titleFlag text title then
      { st with rej := st.rej ++
          if cfg.debug then [{ page := i, text := text, reasons := ["matches title"] }] else [] }
    else if tocFlag text then
      { toc := true, tocStart := (i : ℤ),
        cands := st.cands ++
          [{ text := "Table of Contents", page := i, font_size := maxSize block, score := 100 }],
        rej := st.rej }
    else
      let reasons := blockReasons cfg st i pageHeight c0 text
      if reasons ≠ [] then
        { st with rej := st.rej ++
            if cfg.debug then [{ page := i, text := text, reasons := reasons }] else [] }
      else
        let fontSize := maxSize block
        let isBold := isFontBold block
        let spacing := vertSpacing c0.y0 sortedChars
        let score := headingScore cfg text fontSize isBold spacing
        if acceptFlag cfg text fontSize score isBold then
          { st with cands := st.cands ++
              [{ text := text, page := i, font_size := roundQ1 fontSize, score := score }] }
        else
          { st with rej := st.rej ++
              if cfg.debug then [{ page := i, text := text, reasons := ["low score"] }] else [] }

/-- The block loop over one page. -/
def processBlocks (cfg : Config) (title : String) (i : ℕ) (pageHeight : ℚ)
    (sortedChars : List PChar) : St → List (List PChar) → St
  | st, [] => st
  | st, b :: bs =>
    processBlocks cfg title i pageHeight sortedChars
      (processBlock cfg title i pageHeight sortedChars st b) bs

/-- One page of the page loop, lines 104-183: pages without characters
are skipped entirely. -/
def processPage (cfg : Config) (title : String) (i : ℕ) (st : St) (p : Page) : St :=
  if p.chars = [] then st
  else
    let sorted := sortChars p.chars
    processBlocks cfg title i p.height sorted st (groupBlocks sorted)

/-- The page loop, numbering pages from the given slice index. -/
def processPages (cfg : Config) (title : String) : ℕ → St → List Page → St
  | _, st, [] => st
  | i, st, p :: ps => processPages cfg title (i + 1) (processPage cfg title i st p) ps

/-- The classified sub-sequence pdf.pages[1:max_pages]. -/
def pageSlice (cfg : Config) (pages : List Page) : List Page :=
  (pages.drop 1).take (cfg.maxPages - 1)

/-- _extract_headings: run the page loop from an initial rejection
accumulator, then deduplicate, assign levels and strip the transient
fields.  Returns the outline together with the final accumulator. -/
def extractHeadings (cfg : Config) (pages : List Page) (title : String)
    (rej0 : List Rej) : List Heading × List Rej :=
  let st := processPages cfg title 0
    { toc := false, tocStart := -1, cands := [], rej := rej0 } (pageSlice cfg pages)
  (assignLevels (dedupHeadings st.cands), st.rej)

/-! ## Title extraction and the top-level pipeline -/

/-- _extract_title, lines 192-211, translated clause by clause. -/
def extractTitle (doc : Doc) : String :=
  let metaFallback :=
    match doc.metaTitle with
    | some t => if t ≠ "" && pyStrip t ≠ "" then pyStrip t else "Untitled Document"
    | none => "Untitled Document"
  match doc.pages with
  | [] => metaFallback
  | p0 :: _ =>
    if p0.chars = [] then metaFallback
    else
      let maxSz := maxSize p0.chars
      let tchars := p0.chars.filter fun c => maxSz * (9/10) ≤ c.size
      let tchars := tchars.filter fun c =>
        (1/5) * p0.width < c.x0 && c.x0 < (4/5) * p0.width
      if tchars = [] then metaFallback
      else
        let text := String.join ((sortChars tchars).map (·.text))
        let firstLine := (collapseWs text.toList).takeWhile (· ≠ '\n')
        let title := pyStrip (String.mk (firstLine.take 100))
        if title = "" then metaFallback else title

/-- process_pdf, lines 213-229, minus the byte-level decoding handled
by the external adapter: page-cap check, title extraction, heading
extraction, result assembly.  The returned pair carries the result and
the final value of the instance accumulator self.rejected_blocks,
started from its value before the call. -/
def processPdf (cfg : Config) (rej0 : List Rej) (doc : Doc) :
    Except String (Result × List Rej) :=
  if cfg.maxPages < doc.pages.length then
    Except.error ("Failed to process PDF: PDF exceeds " ++ toString cfg.maxPages ++ " pages.")
  else
    let title := extractTitle doc
    let er := extractHeadings cfg doc.pages title rej0
    Except.ok
      ({ title := title, outline := er.1,
         rejected := if cfg.debug then some er.2 else none }, er.2)

/-! ## Concrete documents used by the witnesses and counterexamples -/

/-- A horizontal line of single-glyph characters at the given position:
x0 increases by one unit per glyph. -/
def mkLineGo (y0 top size : ℚ) : List Char → ℚ → List PChar
  | [], _ => []
  | c :: r, x0 =>
    { text := String.mk [c], x0 := x0, y0 := y0, top := top, size := size,
      fontname := "F" } :: mkLineGo y0 top size r (x0 + 1)

/-- A line of text laid out left to right at height y0. -/
def mkLine (s : String) (x0 y0 top size : ℚ) : List PChar :=
  mkLineGo y0 top size s.toList x0

/-- A page of width and height 100 holding the given characters. -/
def mkPage (chars : List PChar) : Page :=
  { chars := chars, width := 100, height := 100 }

/-- An empty first page. -/
def blankPage : Page := mkPage []

/-- The default configuration with diagnostics enabled. -/
def cfgDebug : Config := { cfgDefault with debug := true }

/-- Document: empty first page, second page holding the single block
"12. Introduction" in the middle of the page. -/
def docNumHead : Doc :=
  { pages := [blankPage, mkPage (mkLine "12. Introduction" 30 50 50 12)],
    metaTitle := some "XYZW" }

/-- Document: empty first page, second page holding the single block
"12.3 Overview". -/
def docTwoLevel : Doc :=
  { pages := [blankPage, mkPage (mkLine "12.3 Overview" 30 50 50 12)],
    metaTitle := some "XYZW" }

/-- Document: empty first page, second page holding the single block
"INTRODUCTION". -/
def docIntro : Doc :=
  { pages := [blankPage, mkPage (mkLine "INTRODUCTION" 30 50 50 12)],
    metaTitle := none }

/-- Document whose first page lays out the title "Table of Contents."
and whose second page holds the single block "TABLE OF CONTENTS". -/
def docTocSim : Doc :=
  { pages := [mkPage (mkLine "Table of Contents." 21 50 50 12),
              mkPage (mkLine "TABLE OF CONTENTS" 30 50 50 12)],
    metaTitle := none }

/-- Document whose first page lays out the title "Table of Contents"
and whose second page holds the identical single block. -/
def docTocEq : Doc :=
  { pages := [mkPage (mkLine "Table of Contents" 21 50 50 12),
              mkPage (mkLine "Table of Contents" 30 50 50 12)],
    metaTitle := none }

/-- Document: empty first page, second page holding the single block
starting with the genuine bullet glyph U+2022. -/
def docBullet : Doc :=
  { pages := [blankPage, mkPage (mkLine "• Overview" 30 50 50 12)],
    metaTitle := none }

/-- Document: empty first page, second page holding the single
hyphen-bulleted block "- item". -/
def docHyphen : Doc :=
  { pages := [blankPage, mkPage (mkLine "- item" 30 50 50 12)],
    metaTitle := none }

/-- A document consisting of one empty page: it produces no headings
and no rejection records. -/
def docOnePage : Doc := { pages := [blankPage], metaTitle := none }

/-- A 51-page document of empty pages, exceeding the default cap. -/
def docBig : Doc := { pages := List.replicate 51 blankPage, metaTitle := none }

/-- Six heading candidates with six distinct font sizes in descending
order. -/
def sixCands : List Cand :=
  [ { text := "A", page := 0, font_size := 15, score := 70 },
    { text := "B", page := 0, font_size := 14, score := 70 },
    { text := "C", page := 1, font_size := 13, score := 70 },
    { text := "D", page := 1, font_size := 12, score := 70 },
    { text := "E", page := 2, font_size := 11, score := 70 },
    { text := "F", page := 2, font_size := 10, score := 70 } ]

/-! ## Specification-side definitions for the title-extraction claim -/

/-- Modelled from the spec, section 4.2, tier 1: the layout-derived
title of the first page, if non-empty: characters at 90 percent or more
of the maximal first-page size, within the central 60 percent of the
width, in reading order, concatenated, whitespace-collapsed, cut before
the first line break, truncated to 100 characters, stripped. -/
def layoutTitle (doc : Doc) : Option String :=
  match doc.pages with
  | [] => none
  | p0 :: _ =>
    if p0.chars = [] then none
    else
      let maxSz := maxSize p0.chars
      let big := p0.chars.filter fun c => maxSz * (9/10) ≤ c.size
      let central := big.filter fun c =>
        (1/5) * p0.width < c.x0 && c.x0 < (4/5) * p0.width
      if central = [] then none
      else
        let text := String.join ((sortChars central).map (·.text))
        let firstLine := (collapseWs text.toList).takeWhile (· ≠ '\n')
        let t := pyStrip (String.mk (firstLine.take 100))
        if t = "" then none else some t

/-- Modelled from the spec, section 4.2, tier 2: the stripped metadata
title when the entry is present and non-blank. -/
def metaTier (doc : Doc) : Option String :=
  match doc.metaTitle with
  | some t => if t ≠ "" && pyStrip t ≠ "" then some (pyStrip t) else none
  | none => none

/-- Decidable equality of pipeline outcomes, used to evaluate the
concrete runs below. -/
instance : DecidableEq (Except String (Result × List Rej)) :=
  fun a b =>
    match a, b with
    | Except.ok x, Except.ok y =>
      if h : x = y then isTrue (by rw [h]) else isFalse (by simp [h])
    | Except.error x, Except.error y =>
      if h : x = y then isTrue (by rw [h]) else isFalse (by simp [h])
    | Except.ok _, Except.error _ => isFalse (by simp)
    | Except.error _, Except.ok _ => isFalse (by simp)

/-! ## Lemmas about deduplication -/

/-- The non-duplication relation maintained by the filtering pass: the
later candidate b is not a same-page fuzzy duplicate of the earlier a. -/
def NotDup (a b : Cand) : Prop :=
  ¬(b.page = a.page ∧ similar (pyLower b.text) (pyLower a.text) = true)

theorem isDup_eq_false_iff (seen : List Cand) (h : Cand) :
    isDup seen h = false ↔ ∀ s ∈ seen, NotDup s h := by
  simp [isDup, NotDup]

theorem mem_dedupGo {x : Cand} :
    ∀ (l seen : List Cand), x ∈ dedupGo seen l →
      x ∈ l ∧ isDup seen x = false
  | [], seen, hx => by simp [dedupGo] at hx
  | h :: t, seen, hx => by
    rw [dedupGo] at hx
    by_cases hd : isDup seen h
    · rw [if_pos hd] at hx
      have := mem_dedupGo t seen hx
      exact ⟨List.mem_cons_of_mem _ this.1, this.2⟩
    · rw [if_neg hd] at hx
      rcases List.mem_cons.1 hx with rfl | hx2
      · exact ⟨List.mem_cons_self _ _, Bool.eq_false_iff.2 hd⟩
      · have := mem_dedupGo t (seen ++ [h]) hx2
        refine ⟨List.mem_cons_of_mem _ this.1, ?_⟩
        rw [isDup_eq_false_iff] at this ⊢
        exact fun s hs => this.2 s (List.mem_append_left _ hs)

theorem pairwise_dedupGo :
    ∀ (l seen : List Cand), List.Pairwise NotDup (dedupGo seen l)
  | [], _ => by simp [dedupGo]
  | h :: t, seen => by
    rw [dedupGo]
    by_cases hd : isDup seen h
    · rw [if_pos hd]; exact pairwise_dedupGo t seen
    · rw [if_neg hd]
      refine List.Pairwise.cons (fun y hy => ?_) (pairwise_dedupGo t (seen ++ [h]))
      have := (mem_dedupGo _ _ hy).2
      rw [isDup_eq_false_iff] at this
      exact this h (List.mem_append_right _ (List.mem_singleton.2 rfl))

theorem dedupGo_of_pairwise :
    ∀ (l seen : List Cand), List.Pairwise NotDup l →
      (∀ x ∈ l, ∀ s ∈ seen, NotDup s x) → dedupGo seen l = l
  | [], _, _, _ => rfl
  | h :: t, seen, hp, hok => by
    have hd : isDup seen h = false :=
      (isDup_eq_false_iff seen h).2 (hok h (List.mem_cons_self _ _))
    rw [dedupGo, hd]
    simp only [Bool.false_eq_true, if_false]
    refine congrArg (h :: ·) (dedupGo_of_pairwise t (seen ++ [h]) hp.of_cons ?_)
    intro x hx s hs
    rcases List.mem_append.1 hs with hs1 | hs2
    · exact hok x (List.mem_cons_of_mem _ hx) s hs1
    · rw [List.mem_singleton.1 hs2]
      exact List.rel_of_pairwise_cons hp hx

theorem mem_insPage {x y : Cand} :
    ∀ l : List Cand, x ∈ insPage y l ↔ x = y ∨ x ∈ l
  | [] => by simp [insPage]
  | z :: l => by
    rw [insPage]
    by_cases h : z.page < y.page
    · rw [if_pos h]
      simp only [List.mem_cons, mem_insPage l]
      tauto
    · rw [if_neg h]; simp only [List.mem_cons]

theorem mem_sortByPage {x : Cand} :
    ∀ l : List Cand, x ∈ sortByPage l ↔ x ∈ l
  | [] => Iff.rfl
  | y :: l => by
    rw [sortByPage, mem_insPage, mem_sortByPage l, List.mem_cons]

theorem pairwise_insPage {x : Cand} :
    ∀ l : List Cand, List.Pairwise NotDup l → (∀ y ∈ l, NotDup x y) →
      List.Pairwise NotDup (insPage x l)
  | [], _, _ => List.pairwise_singleton _ _
  | y :: l, hp, hx => by
    rw [insPage]
    by_cases h : y.page < x.page
    · rw [if_pos h]
      refine List.Pairwise.cons (fun z hz => ?_)
        (pairwise_insPage l hp.of_cons fun z hz => hx z (List.mem_cons_of_mem _ hz))
      rcases (mem_insPage l).1 hz with rfl | hz2
      · exact fun hc => absurd hc.1 (by omega)
      · exact List.rel_of_pairwise_cons hp hz2
    · rw [if_neg h]
      exact List.Pairwise.cons
        (fun z hz => by
          rcases List.mem_cons.1 hz with rfl | hz2
          · exact hx z (List.mem_cons_self _ _)
          · exact hx z (List.mem_cons_of_mem _ hz2))
        hp

theorem pairwise_sortByPage :
    ∀ l : List Cand, List.Pairwise NotDup l → List.Pairwise NotDup (sortByPage l)
  | [], _ => List.Pairwise.nil
  | x :: l, hp => by
    rw [sortByPage]
    exact pairwise_insPage _ (pairwise_sortByPage l hp.of_cons)
      fun y hy => List.rel_of_pairwise_cons hp ((mem_sortByPage l).1 hy)

/-- Ordering by page index. -/
def PageLe (a b : Cand) : Prop := a.page ≤ b.page

theorem pageLe_insPage {x : Cand} :
    ∀ l : List Cand, List.Pairwise PageLe l → List.Pairwise PageLe (insPage x l)
  | [], _ => List.pairwise_singleton _ _
  | y :: l, hp => by
    rw [insPage]
    by_cases h : y.page < x.page
    · rw [if_pos h]
      refine List.Pairwise.cons (fun z hz => ?_) (pageLe_insPage l hp.of_cons)
      rcases (mem_insPage l).1 hz with rfl | hz2
      · exact Nat.le_of_lt h
      · exact List.rel_of_pairwise_cons hp hz2
    · rw [if_neg h]
      exact List.Pairwise.cons
        (fun z hz => by
          rcases List.mem_cons.1 hz with rfl | hz2
          · exact Nat.le_of_not_lt h
          · exact Nat.le_trans (Nat.le_of_not_lt h) (List.rel_of_pairwise_cons hp hz2))
        hp

theorem pageLe_sortByPage :
    ∀ l : List Cand, List.Pairwise PageLe (sortByPage l)
  | [] => List.Pairwise.nil
  | x :: l => by
    rw [sortByPage]
    exact pageLe_insPage _ (pageLe_sortByPage l)

theorem sortByPage_of_sorted :
    ∀ l : List Cand, List.Pairwise PageLe l → sortByPage l = l
  | [], _ => rfl
  | x :: l, hp => by
    rw [sortByPage, sortByPage_of_sorted l hp.of_cons]
    cases l with
    | nil => rfl
    | cons y t =>
      rw [insPage, if_neg (Nat.not_lt.2 (List.rel_of_pairwise_cons hp (List.mem_cons_self _ _)))]

/-! ## Lemmas about level assignment -/

theorem mem_insDesc {x y : ℚ} :
    ∀ l : List ℚ, x ∈ insDesc y l ↔ x = y ∨ x ∈ l
  | [] => by simp [insDesc]
  | z :: l => by
    rw [insDesc]
    by_cases h : y < z
    · rw [if_pos h]
      simp only [List.mem_cons, mem_insDesc l]
      tauto
    · rw [if_neg h]; simp only [List.mem_cons]

theorem mem_sortDesc {x : ℚ} :
    ∀ l : List ℚ, x ∈ sortDesc l ↔ x ∈ l
  | [] => Iff.rfl
  | y :: l => by rw [sortDesc, mem_insDesc, mem_sortDesc l, List.mem_cons]

theorem mem_sortedSizes {c : Cand} {hs : List Cand} (hc : c ∈ hs) :
    c.font_size ∈ sortedSizes hs := by
  rw [sortedSizes, mem_sortDesc, List.mem_dedup]
  exact List.mem_map_of_mem _ hc

theorem lookupD_levelTable {s : ℚ} {d : String} :
    ∀ (sizes : List ℚ) (n : ℕ), s ∈ sizes →
      lookupD (levelTable sizes n) s d = "H" ++ toString (n + sizes.indexOf s + 1)
  | [], _, hs => absurd hs (List.not_mem_nil s)
  | x :: rest, n, hs => by
    rw [levelTable, lookupD]
    by_cases h : s = x
    · subst h
      rw [if_pos rfl, List.indexOf_cons_self]
    · rw [if_neg h, List.indexOf_cons_ne _ (fun hne => h hne.symm),
        lookupD_levelTable rest (n + 1) (by
          rcases List.mem_cons.1 hs with h1 | h2
          · exact absurd h1 h
          · exact h2)]
      have : n + Nat.succ (rest.indexOf s) + 1 = n + 1 + rest.indexOf s + 1 := by omega
      rw [this]

/-! ## Provenance lemmas: where candidates come from -/

theorem titleFlag_eq_false_similar {text title : String}
    (h : titleFlag text title = false) : similar text title = false := by
  rw [titleFlag, Bool.or_eq_false_iff] at h
  exact h.1

theorem processBlock_cands (cfg : Config) (title : String) (i : ℕ)
    (ph : ℚ) (sc : List PChar) (st : St) (b : List PChar) :
    (processBlock cfg title i ph sc st b).cands = st.cands ∨
      ∃ c, (processBlock cfg title i ph sc st b).cands = st.cands ++ [c] ∧
        c.page = i ∧ (c.text = "Table of Contents" ∨
          (similar c.text title = false ∧ c.text = pyStrip (blockText b))) := by
  match b with
  | [] => exact Or.inl rfl
  | c0 :: bs =>
    rw [processBlock]
    by_cases h1 : titleFlag (pyStrip (blockText (c0 :: bs))) title
    · rw [if_pos h1]; exact Or.inl rfl
    · rw [if_neg h1]
      by_cases h2 : tocFlag (pyStrip (blockText (c0 :: bs)))
      · rw [if_pos h2]
        exact Or.inr ⟨_, rfl, rfl, Or.inl rfl⟩
      · rw [if_neg h2]
        by_cases h3 : blockReasons cfg st i ph c0 (pyStrip (blockText (c0 :: bs))) ≠ []
        · rw [if_pos h3]; exact Or.inl rfl
        · rw [if_neg h3]
          by_cases h4 : acceptFlag cfg (pyStrip (blockText (c0 :: bs)))
            (maxSize (c0 :: bs))
            (headingScore cfg (pyStrip (blockText (c0 :: bs))) (maxSize (c0 :: bs))
              (isFontBold (c0 :: bs)) (vertSpacing c0.y0 sc))
            (isFontBold (c0 :: bs))
          · rw [if_pos h4]
            exact Or.inr ⟨_, rfl, rfl,
              Or.inr ⟨titleFlag_eq_false_similar (Bool.eq_false_iff.2 h1), rfl⟩⟩
          · rw [if_neg h4]; exact Or.inl rfl

theorem processBlocks_cands (cfg : Config) (title : String) (i : ℕ)
    (ph : ℚ) (sc : List PChar) :
    ∀ (bs : List (List PChar)) (st : St),
      ∃ L, (processBlocks cfg title i ph sc st bs).cands = st.cands ++ L ∧
        ∀ c ∈ L, c.page = i ∧ (c.text = "Table of Contents" ∨
          (similar c.text title = false ∧
            ∃ b ∈ bs, c.text = pyStrip (blockText b)))
  | [], st => ⟨[], by simp [processBlocks], by simp⟩
  | b :: bs, st => by
    rw [processBlocks]
    obtain ⟨L, hL, hprop⟩ := processBlocks_cands cfg title i ph sc bs
      (processBlock cfg title i ph sc st b)
    rcases processBlock_cands cfg title i ph sc st b with h | ⟨c, hc, hpage, htext⟩
    · refine ⟨L, by rw [hL, h], fun c hc => ?_⟩
      obtain ⟨hp, ht⟩ := hprop c hc
      refine ⟨hp, ?_⟩
      rcases ht with h1 | ⟨h2, b2, hb2, he⟩
      · exact Or.inl h1
      · exact Or.inr ⟨h2, b2, List.mem_cons_of_mem _ hb2, he⟩
    · refine ⟨c :: L, by rw [hL, hc, List.append_assoc]; rfl, fun x hx => ?_⟩
      rcases List.mem_cons.1 hx with rfl | hx2
      · refine ⟨hpage, ?_⟩
        rcases htext with h1 | ⟨h2, he⟩
        · exact Or.inl h1
        · exact Or.inr ⟨h2, b, List.mem_cons_self _ _, he⟩
      · obtain ⟨hp, ht⟩ := hprop x hx2
        refine ⟨hp, ?_⟩
        rcases ht with h1 | ⟨h2, b2, hb2, he⟩
        · exact Or.inl h1
        · exact Or.inr ⟨h2, b2, List.mem_cons_of_mem _ hb2, he⟩

theorem processPage_cands (cfg : Config) (title : String) (i : ℕ)
    (st : St) (p : Page) :
    ∃ L, (processPage cfg title i st p).cands = st.cands ++ L ∧
      ∀ c ∈ L, c.page = i ∧ (c.text = "Table of Contents" ∨
        (similar c.text title = false ∧
          ∃ b ∈ pageBlocks p, c.text = pyStrip (blockText b))) := by
  rw [processPage]
  by_cases h : p.chars = []
  · exact ⟨[], by rw [if_pos h]; simp, by simp⟩
  · rw [if_neg h]
    exact processBlocks_cands cfg title i p.height (sortChars p.chars)
      (groupBlocks (sortChars p.chars)) st

theorem processPages_cands (cfg : Config) (title : String) :
    ∀ (ps : List Page) (i : ℕ) (st : St),
      ∃ L, (processPages cfg title i st ps).cands = st.cands ++ L ∧
        ∀ c ∈ L, ∃ k p, c.page = i + k ∧ (ps.drop k).head? = some p ∧
          (c.text = "Table of Contents" ∨
            (similar c.text title = false ∧
              ∃ b ∈ pageBlocks p, c.text = pyStrip (blockText b)))
  | [], _, st => ⟨[], by simp [processPages], by simp⟩
  | p :: ps, i, st => by
    rw [processPages]
    obtain ⟨L1, hL1, hp1⟩ := processPage_cands cfg title i st p
    obtain ⟨L2, hL2, hp2⟩ := processPages_cands cfg title ps (i + 1)
      (processPage cfg title i st p)
    refine ⟨L1 ++ L2, by rw [hL2, hL1, List.append_assoc], fun c hc => ?_⟩
    rcases List.mem_append.1 hc with hc1 | hc2
    · obtain ⟨hp, ht⟩ := hp1 c hc1
      exact ⟨0, p, by omega, rfl, ht⟩
    · obtain ⟨k, q, hpage, hq, ht⟩ := hp2 c hc2
      exact ⟨k + 1, q, by omega, hq, ht⟩

theorem mem_dedupHeadings {x : Cand} {hs : List Cand}
    (hx : x ∈ dedupHeadings hs) : x ∈ hs := by
  rw [dedupHeadings, mem_sortByPage] at hx
  exact (mem_dedupGo hs [] hx).1

theorem mem_assignLevels {h : Heading} {hs : List Cand}
    (hh : h ∈ assignLevels hs) :
    ∃ c ∈ hs, h.text = c.text ∧ h.page = c.page := by
  rw [assignLevels, List.mem_map] at hh
  obtain ⟨c, hc, he⟩ := hh
  exact ⟨c, hc, by rw [← he], by rw [← he]⟩

theorem head?_take {α : Type} {l : List α} {n : ℕ} :
    (l.take n).head? = if n = 0 then none else l.head? := by
  cases n with
  | zero => simp
  | succ m => cases l with
    | nil => simp
    | cons x t => simp

/-- The central provenance fact: every emitted heading carries the
slice index of the page its block came from, and its text is either the
synthetic table-of-contents text or the stripped text of a block of that
page, in the latter case not fuzzy-similar to the title. -/
theorem extractHeadings_provenance (cfg : Config) (pages : List Page)
    (title : String) (rej0 : List Rej) :
    ∀ h ∈ (extractHeadings cfg pages title rej0).1,
      ∃ p, (pages.drop (h.page + 1)).head? = some p ∧
        h.page + 1 < pages.length ∧
        (h.text = "Table of Contents" ∨
          (similar h.text title = false ∧
            ∃ b ∈ pageBlocks p, h.text = pyStrip (blockText b))) := by
  intro h hh
  rw [extractHeadings] at hh
  obtain ⟨c, hc, htext, hpage⟩ := mem_assignLevels hh
  have hc2 := mem_dedupHeadings hc
  obtain ⟨L, hL, hprop⟩ := processPages_cands cfg title (pageSlice cfg pages) 0
    { toc := false, tocStart := -1, cands := [], rej := rej0 }
  rw [hL] at hc2
  simp only [List.nil_append] at hc2
  obtain ⟨k, p, hk, hp, ht⟩ := hprop c hc2
  have hk0 : c.page = k := by omega
  subst hk0
  rw [pageSlice] at hp
  rw [List.drop_take] at hp
  rw [head?_take] at hp
  by_cases hz : cfg.maxPages - 1 - c.page = 0
  · rw [if_pos hz] at hp; exact absurd hp (by simp)
  · rw [if_neg hz] at hp
    rw [List.drop_drop] at hp
    have hlen : c.page + 1 < pages.length := by
      by_contra hle
      have h1 : pages.length ≤ c.page + 1 := by omega
      have h2 : pages.drop (c.page + 1) = [] := List.drop_eq_nil_of_le h1
      have h3 : c.page + 1 = 1 + c.page := by omega
      rw [h3] at h2
      rw [h2] at hp
      exact absurd hp (by simp)
    refine ⟨p, ?_, by rw [hpage]; exact hlen, ?_⟩
    · rw [hpage]
      have h3 : c.page + 1 = 1 + c.page := by omega
      rw [h3]; exact hp
    · rw [htext]
      exact ht

/-! ## The rejection accumulator is append-only and state-independent -/

theorem processBlock_rejSplit (cfg : Config) (title : String) (i : ℕ)
    (ph : ℚ) (sc : List PChar) (st : St) (b : List PChar) :
    processBlock cfg title i ph sc st b =
      { toc := (processBlock cfg title i ph sc { st with rej := [] } b).toc,
        tocStart := (processBlock cfg title i ph sc { st with rej := [] } b).tocStart,
        cands := (processBlock cfg title i ph sc { st with rej := [] } b).cands,
        rej := st.rej ++ (processBlock cfg title i ph sc { st with rej := [] } b).rej } := by
  match b with
  | [] => simp [processBlock]
  | c0 :: bs =>
    rw [processBlock, processBlock]
    by_cases h1 : titleFlag (pyStrip (blockText (c0 :: bs))) title
    · rw [if_pos h1, if_pos h1]; simp
    · rw [if_neg h1, if_neg h1]
      by_cases h2 : tocFlag (pyStrip (blockText (c0 :: bs)))
      · rw [if_pos h2, if_pos h2]; simp
      · rw [if_neg h2, if_neg h2]
        have hbr : blockReasons cfg { st with rej := [] } i ph c0
            (pyStrip (blockText (c0 :: bs))) =
            blockReasons cfg st i ph c0 (pyStrip (blockText (c0 :: bs))) := rfl
        rw [hbr]
        by_cases h3 : blockReasons cfg st i ph c0 (pyStrip (blockText (c0 :: bs))) ≠ []
        · rw [if_pos h3, if_pos h3]; simp
        · rw [if_neg h3, if_neg h3]
          by_cases h4 : acceptFlag cfg (pyStrip (blockText (c0 :: bs)))
            (maxSize (c0 :: bs))
            (headingScore cfg (pyStrip (blockText (c0 :: bs))) (maxSize (c0 :: bs))
              (isFontBold (c0 :: bs)) (vertSpacing c0.y0 sc))
            (isFontBold (c0 :: bs))
          · rw [if_pos h4, if_pos h4]; simp
          · rw [if_neg h4, if_neg h4]; simp

theorem processBlocks_rejSplit (cfg : Config) (title : String) (i : ℕ)
    (ph : ℚ) (sc : List PChar) :
    ∀ (bs : List (List PChar)) (st : St),
      processBlocks cfg title i ph sc st bs =
        { toc := (processBlocks cfg title i ph sc { st with rej := [] } bs).toc,
          tocStart := (processBlocks cfg title i ph sc { st with rej := [] } bs).tocStart,
          cands := (processBlocks cfg title i ph sc { st with rej := [] } bs).cands,
          rej := st.rej ++ (processBlocks cfg title i ph sc { st with rej := [] } bs).rej }
  | [], st => by simp [processBlocks]
  | b :: bs, st => by
    rw [processBlocks, processBlocks]
    rw [processBlock_rejSplit cfg title i ph sc st b]
    rw [processBlocks_rejSplit cfg title i ph sc bs
      { toc := (processBlock cfg title i ph sc { st with rej := [] } b).toc,
        tocStart := (processBlock cfg title i ph sc { st with rej := [] } b).tocStart,
        cands := (processBlock cfg title i ph sc { st with rej := [] } b).cands,
        rej := st.rej ++ (processBlock cfg title i ph sc { st with rej := [] } b).rej }]
    rw [processBlocks_rejSplit cfg title i ph sc bs
      (processBlock cfg title i ph sc { st with rej := [] } b)]
    simp [List.append_assoc]

theorem processPage_rejSplit (cfg : Config) (title : String) (i : ℕ)
    (st : St) (p : Page) :
    processPage cfg title i st p =
      { toc := (processPage cfg title i { st with rej := [] } p).toc,
        tocStart := (processPage cfg title i { st with rej := [] } p).tocStart,
        cands := (processPage cfg title i { st with rej := [] } p).cands,
        rej := st.rej ++ (processPage cfg title i { st with rej := [] } p).rej } := by
  rw [processPage, processPage]
  by_cases h : p.chars = []
  · rw [if_pos h, if_pos h]; simp
  · rw [if_neg h, if_neg h]
    exact processBlocks_rejSplit cfg title i p.height (sortChars p.chars) _ st

theorem processPages_rejSplit (cfg : Config) (title : String) :
    ∀ (ps : List Page) (i : ℕ) (st : St),
      processPages cfg title i st ps =
        { toc := (processPages cfg title i { st with rej := [] } ps).toc,
          tocStart := (processPages cfg title i { st with rej := [] } ps).tocStart,
          cands := (processPages cfg title i { st with rej := [] } ps).cands,
          rej := st.rej ++ (processPages cfg title i { st with rej := [] } ps).rej }
  | [], i, st => by simp [processPages]
  | p :: ps, i, st => by
    rw [processPages, processPages]
    rw [processPage_rejSplit cfg title i st p]
    rw [processPages_rejSplit cfg title ps (i + 1)
      { toc := (processPage cfg title i { st with rej := [] } p).toc,
        tocStart := (processPage cfg title i { st with rej := [] } p).tocStart,
        cands := (processPage cfg title i { st with rej := [] } p).cands,
        rej := st.rej ++ (processPage cfg title i { st with rej := [] } p).rej }]
    rw [processPages_rejSplit cfg title ps (i + 1)
      (processPage cfg title i { st with rej := [] } p)]
    simp [List.append_assoc]

/-- The heading extractor appends to the incoming accumulator a block
of records that does not depend on the incoming accumulator. -/
theorem extractHeadings_rejSplit (cfg : Config) (pages : List Page)
    (title : String) (rej0 : List Rej) :
    extractHeadings cfg pages title rej0 =
      ((extractHeadings cfg pages title []).1,
        rej0 ++ (extractHeadings cfg pages title []).2) := by
  rw [extractHeadings, extractHeadings]
  rw [processPages_rejSplit cfg title (pageSlice cfg pages) 0
    { toc := false, tocStart := -1, cands := [], rej := rej0 }]

/-! ## Claim theorems -/

/-- Claim C5 (confirmed): a document whose page count exceeds max_pages
makes process_pdf fail with the single wrapped human-readable error,
independently of the page contents, before any title or heading
extraction: the result is the same error for every document of that
page count, and nothing is extracted. -/
theorem c5_page_cap (cfg : Config) (rej0 : List Rej) (doc : Doc)
    (h : cfg.maxPages < doc.pages.length) :
    processPdf cfg rej0 doc =
      Except.error
        ("Failed to process PDF: PDF exceeds " ++ toString cfg.maxPages ++ " pages.") := by
  rw [processPdf, if_pos h]

/-- Witness for C5: the 51-page document against the default cap of 50. -/
theorem c5_witness :
    cfgDefault.maxPages < docBig.pages.length ∧
      processPdf cfgDefault [] docBig =
        Except.error
          ("Failed to process PDF: PDF exceeds " ++ toString cfgDefault.maxPages ++ " pages.") :=
  ⟨by decide, c5_page_cap cfgDefault [] docBig (by decide)⟩

/-- Claim C6 (confirmed): title extraction is the strict three-tier
fallback layout-derived, then metadata, then the placeholder, with the
tiers never combined: the source function equals the tier composition,
where the tier definitions are modelled from the spec. -/
theorem metaFallback_eq (pages : List Page) (metaT : Option String) :
    (match metaT with
      | some t => if t ≠ "" && pyStrip t ≠ "" then pyStrip t else "Untitled Document"
      | none => "Untitled Document") =
    (match metaTier { pages := pages, metaTitle := metaT } with
      | some t => t
      | none => "Untitled Document") := by
  cases metaT with
  | none => rfl
  | some t =>
    simp only [metaTier]
    by_cases h : (t ≠ "" && pyStrip t ≠ "") = true
    · rw [if_pos h, if_pos h]
    · rw [if_neg h, if_neg h]

theorem c6_title_three_tier (doc : Doc) :
    extractTitle doc =
      (match layoutTitle doc with
       | some s => s
       | none =>
         match metaTier doc with
         | some t => t
         | none => "Untitled Document") := by
  rcases doc with ⟨pages, metaT⟩
  cases pages with
  | nil =>
    simp only [extractTitle, layoutTitle]
    exact metaFallback_eq [] metaT
  | cons p0 rest =>
    simp only [extractTitle, layoutTitle]
    split_ifs with h1 h2 h3
    · exact metaFallback_eq _ _
    · exact metaFallback_eq _ _
    · exact metaFallback_eq _ _
    · rfl

/-- Claim C7 (amended): every candidate receives exactly the label
H(i+1) for i the 0-based rank of its font size among the distinct
accepted sizes sorted descending, so equal sizes receive equal labels
and strictly larger sizes strictly smaller ranks; the labels lie within
H1..H5 when there are at most five distinct sizes, and exceed H5
otherwise. -/
theorem c7_level_rank (hs : List Cand) :
    assignLevels hs =
      hs.map (fun c =>
        { text := c.text, page := c.page,
          level := "H" ++ toString ((sortedSizes hs).indexOf c.font_size + 1) }) ∧
      ((sortedSizes hs).length ≤ 5 →
        ∀ h ∈ assignLevels hs,
          h.level ∈ (["H1", "H2", "H3", "H4", "H5"] : List String)) := by
  have hmap : assignLevels hs =
      hs.map (fun c =>
        { text := c.text, page := c.page,
          level := "H" ++ toString ((sortedSizes hs).indexOf c.font_size + 1) }) := by
    rw [assignLevels]
    refine List.map_congr_left fun c hc => ?_
    rw [lookupD_levelTable (sortedSizes hs) 0 (mem_sortedSizes hc)]
    rw [Nat.zero_add]
  refine ⟨hmap, fun hlen h hh => ?_⟩
  rw [hmap, List.mem_map] at hh
  obtain ⟨c, hc, he⟩ := hh
  have hidx : (sortedSizes hs).indexOf c.font_size < 5 :=
    Nat.lt_of_lt_of_le (List.indexOf_lt_length.2 (mem_sortedSizes hc)) hlen
  rw [← he]
  show "H" ++ toString ((sortedSizes hs).indexOf c.font_size + 1) ∈
    (["H1", "H2", "H3", "H4", "H5"] : List String)
  interval_cases hval : (sortedSizes hs).indexOf c.font_size <;> decide

/-- Counterexample for C7: six candidates with six distinct font sizes
receive the labels H1 through H6; the label H6 lies outside the range
H1..H5 that the claim asserts for every emitted level. -/
theorem c7_counterexample :
    (assignLevels sixCands).map (fun h => h.level) =
        ["H1", "H2", "H3", "H4", "H5", "H6"] ∧
      ¬(∀ h ∈ assignLevels sixCands,
          h.level ∈ (["H1", "H2", "H3", "H4", "H5"] : List String)) := by
  exact ⟨by decide, by decide⟩

/-- Witness for C7: a single candidate receives the label H1, inside
the range H1..H5 for its one distinct size. -/
theorem c7_witness :
    ∀ h ∈ assignLevels [{ text := "A", page := 0, font_size := 12, score := 70 : Cand }],
      h.level ∈ (["H1", "H2", "H3", "H4", "H5"] : List String) :=
  (c7_level_rank [{ text := "A", page := 0, font_size := 12, score := 70 }]).2 (by decide)

/-- Claim C8 (confirmed): deduplication is idempotent: applying
_deduplicate_headings to its own output returns that output unchanged. -/
theorem c8_dedup_idempotent (hs : List Cand) :
    dedupHeadings (dedupHeadings hs) = dedupHeadings hs := by
  have hpair : List.Pairwise NotDup (sortByPage (dedupPass hs)) :=
    pairwise_sortByPage _ (pairwise_dedupGo hs [])
  have hsorted : List.Pairwise PageLe (sortByPage (dedupPass hs)) :=
    pageLe_sortByPage (dedupPass hs)
  show sortByPage (dedupPass (sortByPage (dedupPass hs))) = sortByPage (dedupPass hs)
  rw [show dedupPass (sortByPage (dedupPass hs)) = sortByPage (dedupPass hs) from
      dedupGo_of_pairwise _ [] hpair (by simp)]
  exact sortByPage_of_sorted _ hsorted

/-- Claim C1 (amended): for a block on a classified page that no other
check flags, the numbered-paragraph rejection of line 157 fires BEFORE
the numbered-heading acceptance of line 173 and wins: any block whose
stripped text matches the numbered-paragraph pattern (in particular
every top-level numbered heading such as "12. Introduction") is
rejected with reason "numbered paragraph" and yields no candidate,
while a block matching the two-level pattern "12.3 Overview" does not
match the numbered-paragraph pattern and is accepted. -/
theorem c1_numbered_precedence (cfg : Config) (title : String) (i : ℕ)
    (ph : ℚ) (sc : List PChar) (st : St) (c0 : PChar) (bs : List PChar)
    (t : String) (ht : t = pyStrip (blockText (c0 :: bs)))
    (hTitle : titleFlag t title = false)
    (hToC : tocFlag t = false)
    (hHf : hfFlag cfg ph c0 = false)
    (hShort : shortFlag t = false)
    (hSkip : tocSkipFlag cfg st i = false)
    (hDotted : dottedMatch t.toList = false)
    (hVersion : versionMatch t.toList = false)
    (hBullet : bulletMatch t.toList = false) :
    (numberedParaMatch t.toList = true →
      processBlock cfg title i ph sc st (c0 :: bs) =
        { st with rej := st.rej ++
            (if cfg.debug then
              [{ page := i, text := t, reasons := ["numbered paragraph"] }]
             else []) }) ∧
    (numberedParaMatch t.toList = false → twoNumMatch t.toList = true →
      processBlock cfg title i ph sc st (c0 :: bs) =
        { st with cands := st.cands ++
            [{ text := t, page := i, font_size := roundQ1 (maxSize (c0 :: bs)),
               score := headingScore cfg t (maxSize (c0 :: bs)) (isFontBold (c0 :: bs))
                 (vertSpacing c0.y0 sc) }] }) := by
  subst ht
  constructor
  · intro hNum
    rw [processBlock]
    rw [hTitle]
    simp only [Bool.false_eq_true, if_false]
    rw [hToC]
    simp only [Bool.false_eq_true, if_false]
    have hreasons : blockReasons cfg st i ph c0 (pyStrip (blockText (c0 :: bs))) =
        ["numbered paragraph"] := by
      rw [blockReasons, hHf, hShort, hSkip, hDotted, hVersion, hBullet, hNum]
      simp
    rw [hreasons]
    simp
  · intro hNum hTwo
    rw [processBlock]
    rw [hTitle]
    simp only [Bool.false_eq_true, if_false]
    rw [hToC]
    simp only [Bool.false_eq_true, if_false]
    have hreasons : blockReasons cfg st i ph c0 (pyStrip (blockText (c0 :: bs))) = [] := by
      rw [blockReasons, hHf, hShort, hSkip, hDotted, hVersion, hBullet, hNum]
      simp
    rw [hreasons]
    have haccept : acceptFlag cfg (pyStrip (blockText (c0 :: bs))) (maxSize (c0 :: bs))
        (headingScore cfg (pyStrip (blockText (c0 :: bs))) (maxSize (c0 :: bs))
          (isFontBold (c0 :: bs)) (vertSpacing c0.y0 sc)) (isFontBold (c0 :: bs)) = true := by
      rw [acceptFlag, hTwo]
      simp
    rw [haccept]
    simp

/-- Claim C4 (amended): a block whose text contains "table of contents"
case-insensitively and which is not caught by the earlier title-match
skip of line 129 makes the classifier emit the synthetic heading
"Table of Contents" with score 100 and the maximum font size of the block,
bypassing every other check: no hypothesis about the header/footer,
length, ToC-skip, pattern or scoring checks is needed. -/
theorem c4_toc_emission (cfg : Config) (title : String) (i : ℕ)
    (ph : ℚ) (sc : List PChar) (st : St) (c0 : PChar) (bs : List PChar)
    (t : String) (ht : t = pyStrip (blockText (c0 :: bs)))
    (hTitle : titleFlag t title = false)
    (hToC : tocFlag t = true) :
    processBlock cfg title i ph sc st (c0 :: bs) =
      { toc := true, tocStart := (i : ℤ),
        cands := st.cands ++
          [{ text := "Table of Contents", page := i,
             font_size := maxSize (c0 :: bs), score := 100 }],
        rej := st.rej } := by
  subst ht
  rw [processBlock]
  rw [hTitle]
  simp only [Bool.false_eq_true, if_false]
  rw [hToC]
  simp

/-- Claim C2 (amended): every emitted heading carries the 0-based index
of its page within the classified sub-sequence pdf.pages[1:max_pages],
that is, the document page index of its block MINUS ONE: the block of a
heading with page field k lies on document page k + 1, so a heading
whose block lies on the second page of the document is reported with
page = 0, and page 0 is attainable. -/
theorem c2_page_slice_index (cfg : Config) (pages : List Page)
    (title : String) (rej0 : List Rej) :
    ∀ h ∈ (extractHeadings cfg pages title rej0).1,
      ∃ p, (pages.drop (h.page + 1)).head? = some p ∧
        h.page + 1 < pages.length ∧
        (h.text = "Table of Contents" ∨
          ∃ b ∈ pageBlocks p, h.text = pyStrip (blockText b)) := by
  intro h hh
  obtain ⟨p, hp, hlen, ht⟩ := extractHeadings_provenance cfg pages title rej0 h hh
  refine ⟨p, hp, hlen, ?_⟩
  rcases ht with h1 | ⟨_, h2⟩
  · exact Or.inl h1
  · exact Or.inr h2

/-- Claim C3 (amended): every heading emitted through the normal
scoring path has text not fuzzy-similar to the title, because the
title-match skip of line 129 rejects similar blocks before scoring; the
only possible exception is the synthetic table-of-contents heading,
whose fixed text "Table of Contents" is emitted from a block that had
to differ from the title and can itself be similar to the title. -/
theorem c3_title_leakage (cfg : Config) (pages : List Page)
    (title : String) (rej0 : List Rej) :
    ∀ h ∈ (extractHeadings cfg pages title rej0).1,
      h.text = "Table of Contents" ∨ similar h.text title = false := by
  intro h hh
  obtain ⟨p, hp, hlen, ht⟩ := extractHeadings_provenance cfg pages title rej0 h hh
  rcases ht with h1 | ⟨h2, _⟩
  · exact Or.inl h1
  · exact Or.inr h2

/-- Counterexample for C1: the document whose second page holds the
sole mid-page block "12. Introduction" (matching the claimed top-level
numbered-heading pattern, flagged by no other check) produces an EMPTY
outline, the block being rejected with reason "numbered paragraph": the
rejection wins over the claimed acceptance override. -/
theorem c1_counterexample :
    processPdf cfgDebug [] docNumHead =
      Except.ok
        ({ title := "XYZW", outline := [],
           rejected :=
             some [{ page := 0, text := "12. Introduction",
                     reasons := ["numbered paragraph"] }] },
         [{ page := 0, text := "12. Introduction",
            reasons := ["numbered paragraph"] }]) := by
  decide

/-- Witness for C1: the rejection branch at "12. Introduction" and the
acceptance branch at "12.3 Overview", both through the amended theorem. -/
theorem c1_witness :
    (processBlock cfgDebug "XYZW" 0 100 (mkLine "12. Introduction" 30 50 50 12)
        { toc := false, tocStart := -1, cands := [], rej := [] }
        (mkLine "12. Introduction" 30 50 50 12) =
      { toc := false, tocStart := -1, cands := [],
        rej := [{ page := 0, text := "12. Introduction",
                  reasons := ["numbered paragraph"] }] }) ∧
    (processBlock cfgDebug "XYZW" 0 100 (mkLine "12.3 Overview" 30 50 50 12)
        { toc := false, tocStart := -1, cands := [], rej := [] }
        (mkLine "12.3 Overview" 30 50 50 12) =
      { toc := false, tocStart := -1,
        cands := [{ text := "12.3 Overview", page := 0, font_size := 12,
                    score := 72/5 }],
        rej := [] }) := by
  constructor
  · exact (c1_numbered_precedence cfgDebug "XYZW" 0 100
      (mkLine "12. Introduction" 30 50 50 12)
      { toc := false, tocStart := -1, cands := [], rej := [] }
      _ _ _ rfl (by decide) (by decide) (by decide) (by decide) (by decide)
      (by decide) (by decide) (by decide)).1 (by decide)
  · exact (c1_numbered_precedence cfgDebug "XYZW" 0 100
      (mkLine "12.3 Overview" 30 50 50 12)
      { toc := false, tocStart := -1, cands := [], rej := [] }
      _ _ _ rfl (by decide) (by decide) (by decide) (by decide) (by decide)
      (by decide) (by decide) (by decide)).2 (by decide) (by decide)

/-- Counterexample for C2: in the document whose second page holds the
accepted block "INTRODUCTION", the emitted heading carries page = 0,
not page = 1: headings are numbered by slice position, the first page
of the document does not keep index 0 out of the outline. -/
theorem c2_counterexample :
    processPdf cfgDefault [] docIntro =
      Except.ok
        ({ title := "Untitled Document",
           outline := [{ text := "INTRODUCTION", page := 0, level := "H1" }],
           rejected := none },
         []) := by
  decide

/-- Witness for C2: the amended theorem applied to the heading of the
counterexample document locates its block on document page 1 = 0 + 1. -/
theorem c2_witness :
    ∃ p, (docIntro.pages.drop (0 + 1)).head? = some p ∧
      0 + 1 < docIntro.pages.length ∧
      ("INTRODUCTION" = "Table of Contents" ∨
        ∃ b ∈ pageBlocks p, "INTRODUCTION" = pyStrip (blockText b)) :=
  c2_page_slice_index cfgDefault docIntro.pages "Untitled Document" []
    { text := "INTRODUCTION", page := 0, level := "H1" } (by decide)

/-- Counterexample for C3: a first page laying out the title
"Table of Contents." and a second page holding the block
"TABLE OF CONTENTS" (not similar to the title, ratio 4/35) make the
pipeline emit the synthetic heading "Table of Contents", whose
similarity to the title is 34/35 > 0.85: title leakage occurs. -/
theorem c3_counterexample :
    processPdf cfgDefault [] docTocSim =
      Except.ok
        ({ title := "Table of Contents.",
           outline := [{ text := "Table of Contents", page := 0, level := "H1" }],
           rejected := none },
         []) ∧
      similar "Table of Contents" "Table of Contents." = true := by
  exact ⟨by decide, by decide⟩

/-- Witness for C3: the amended theorem applied to the heading of the
C2 counterexample document: a normal-path heading is never similar to
the title. -/
theorem c3_witness :
    "INTRODUCTION" = "Table of Contents" ∨
      similar "INTRODUCTION" "Untitled Document" = false :=
  c3_title_leakage cfgDefault docIntro.pages "Untitled Document" []
    { text := "INTRODUCTION", page := 0, level := "H1" } (by decide)

/-- Counterexample for C4: when the extracted title is itself
"Table of Contents", the identical sole block of the second page is
skipped by the title-match check of line 129 BEFORE the
table-of-contents check runs, and no synthetic heading is emitted: the
emission is not unconditional. -/
theorem c4_counterexample :
    processPdf cfgDefault [] docTocEq =
      Except.ok
        ({ title := "Table of Contents", outline := [], rejected := none },
         []) := by
  decide

/-- Witness for C4: a "Table of Contents" block lying inside the
header/footer region with a tiny font and a low score still triggers
the synthetic emission, since only the title-match skip precedes it. -/
theorem c4_witness :
    processBlock cfgDefault "XYZW" 0 100 (mkLine "Table of Contents" 30 95 95 9)
        { toc := false, tocStart := -1, cands := [], rej := [] }
        (mkLine "Table of Contents" 30 95 95 9) =
      { toc := true, tocStart := 0,
        cands := [{ text := "Table of Contents", page := 0, font_size := 9,
                    score := 100 }],
        rej := [] } :=
  c4_toc_emission cfgDefault "XYZW" 0 100
    (mkLine "Table of Contents" 30 95 95 9)
    { toc := false, tocStart := -1, cands := [], rej := [] }
    _ _ _ rfl (by decide) (by decide)

/-- Claim C9 (code bug): the bullet character class of line 154 is the
double-encoded three-character sequence, not the bullet glyph U+2022,
so a block whose stripped text begins with the genuine bullet glyph is
NOT flagged as a bullet: evaluated on the failing input "• Overview",
the bullet matcher returns false, no "bullet point" reason is recorded
even with diagnostics on, and the block is accepted as a heading. -/
theorem c9_bullet_mojibake :
    bulletMatch "• Overview".toList = false ∧
      processPdf cfgDebug [] docBullet =
        Except.ok
          ({ title := "Untitled Document",
             outline := [{ text := "• Overview", page := 0, level := "H1" }],
             rejected := some [] },
           []) ∧
      bulletMatch "- item".toList = true := by
  exact ⟨by decide, by decide, by decide⟩

/-- Claim C10 (amended): process_pdf never resets the per-instance
accumulator: with diagnostics enabled, each successful call returns the
full accumulated record list, so a second identical call sees the first
records of the first call as a prefix, and the two "rejected" lists differ
exactly when the document produces at least one rejection record. -/
theorem c10_rejected_accumulates (cfg : Config) (doc : Doc)
    (r1 r2 : Result) (s1 s2 : List Rej)
    (hdbg : cfg.debug = true)
    (h1 : processPdf cfg [] doc = Except.ok (r1, s1))
    (h2 : processPdf cfg s1 doc = Except.ok (r2, s2)) :
    r1.rejected = some s1 ∧ r2.rejected = some s2 ∧ s2 = s1 ++ s1 ∧
      (s1 ≠ [] → r1.rejected ≠ r2.rejected) := by
  simp only [processPdf] at h1 h2
  by_cases hc : cfg.maxPages < doc.pages.length
  · rw [if_pos hc] at h1
    exact absurd h1 (by simp)
  · rw [if_neg hc] at h1 h2
    rw [extractHeadings_rejSplit cfg doc.pages (extractTitle doc) s1] at h2
    have hE1 := Except.ok.inj h1
    have hr1 : ({ title := extractTitle doc,
                  outline := (extractHeadings cfg doc.pages (extractTitle doc) []).1,
                  rejected := if cfg.debug = true
                    then some (extractHeadings cfg doc.pages (extractTitle doc) []).2
                    else none } : Result) = r1 := congrArg Prod.fst hE1
    have hs1 : (extractHeadings cfg doc.pages (extractTitle doc) []).2 = s1 :=
      congrArg Prod.snd hE1
    have hE2 := Except.ok.inj h2
    have hr2 : ({ title := extractTitle doc,
                  outline := (extractHeadings cfg doc.pages (extractTitle doc) []).1,
                  rejected := if cfg.debug = true
                    then some (s1 ++ (extractHeadings cfg doc.pages (extractTitle doc) []).2)
                    else none } : Result) = r2 := congrArg Prod.fst hE2
    have hs2 : s1 ++ (extractHeadings cfg doc.pages (extractTitle doc) []).2 = s2 :=
      congrArg Prod.snd hE2
    rw [hdbg] at hr1 hr2
    simp only [if_true] at hr1 hr2
    rw [hs1] at hr1 hr2 hs2
    refine ⟨by rw [← hr1], by rw [← hr2, ← hs2], by rw [← hs2], fun hne heq => ?_⟩
    rw [← hr1, ← hr2] at heq
    simp only [Option.some.injEq] at heq
    have hlen := congrArg List.length heq
    rw [List.length_append] at hlen
    have : s1.length = 0 := by omega
    exact hne (List.length_eq_zero.1 this)

/-- Counterexample for C10: a one-page document produces no rejection
records, so two successive calls on the same instance return results
whose "rejected" lists are both the empty list: the lists do not
differ, against the unconditional final clause of the claim.  The first
call returns the instance accumulator unchanged and empty, so the
second call is the very same call with the very same output. -/
theorem c10_counterexample :
    processPdf cfgDebug [] docOnePage =
      Except.ok
        ({ title := "Untitled Document", outline := [], rejected := some [] },
         []) := by
  decide

/-- Witness for C10: on the document whose second page holds the
hyphen-bulleted block "- item" (one rejection record per run), the
amended theorem yields that the two successive rejected lists differ. -/
theorem c10_witness :
    processPdf cfgDebug [] docHyphen =
      Except.ok
        ({ title := "Untitled Document", outline := [],
           rejected := some [{ page := 0, text := "- item",
                               reasons := ["bullet point"] }] },
         [{ page := 0, text := "- item", reasons := ["bullet point"] }]) ∧
    processPdf cfgDebug [{ page := 0, text := "- item", reasons := ["bullet point"] }]
        docHyphen =
      Except.ok
        ({ title := "Untitled Document", outline := [],
           rejected := some [{ page := 0, text := "- item", reasons := ["bullet point"] },
                             { page := 0, text := "- item", reasons := ["bullet point"] }] },
         [{ page := 0, text := "- item", reasons := ["bullet point"] },
          { page := 0, text := "- item", reasons := ["bullet point"] }]) ∧
    (some [{ page := 0, text := "- item", reasons := ["bullet point"] }] :
        Option (List Rej)) ≠
      some [{ page := 0, text := "- item", reasons := ["bullet point"] },
            { page := 0, text := "- item", reasons := ["bullet point"] }] := by
  refine ⟨by decide, by decide, ?_⟩
  exact (c10_rejected_accumulates cfgDebug docHyphen
    { title := "Untitled Document", outline := [],
      rejected := some [{ page := 0, text := "- item", reasons := ["bullet point"] }] }
    { title := "Untitled Document", outline := [],
      rejected := some [{ page := 0, text := "- item", reasons := ["bullet point"] },
                        { page := 0, text := "- item", reasons := ["bullet point"] }] }
    [{ page := 0, text := "- item", reasons := ["bullet point"] }]
    [{ page := 0, text := "- item", reasons := ["bullet point"] },
     { page := 0, text := "- item", reasons := ["bullet point"] }]
    rfl (by decide) (by decide)).2.2.2 (by decide)
